import Mathlib

/-!
Verification of the flood-control-projects module of the bettergov repository:
filter state, query predicate construction, dashboard statistics, chart
aggregation, table sorting and pagination, and the export pipeline.

JavaScript numbers that flow through `parseFloat` and `Number` are modelled by
`JsVal`: an exact rational together with the special values NaN and the two
infinities. Array.prototype.sort is modelled by a stable insertion sort
(`jsSortBy`): an element is inserted before the first element against which the
comparator is not positive, which matches the ECMAScript requirements that the
sort be stable and that a NaN comparator result be treated as zero.
-/

/-- JavaScript numeric values: NaN, the infinities, and finite numbers
(modelled exactly as rationals). -/
inductive JsVal where
  | nan : JsVal
  | posInf : JsVal
  | negInf : JsVal
  | num (q : ℚ) : JsVal
deriving DecidableEq

/-- JavaScript subtraction on `JsVal`. -/
def jsSub : JsVal → JsVal → JsVal
  | .nan, _ => .nan
  | _, .nan => .nan
  | .posInf, .posInf => .nan
  | .posInf, _ => .posInf
  | .negInf, .negInf => .nan
  | .negInf, _ => .negInf
  | .num _, .posInf => .negInf
  | .num _, .negInf => .posInf
  | .num a, .num b => .num (a - b)

/-- JavaScript addition on `JsVal`. -/
def jsAdd : JsVal → JsVal → JsVal
  | .nan, _ => .nan
  | _, .nan => .nan
  | .posInf, .negInf => .nan
  | .posInf, _ => .posInf
  | .negInf, .posInf => .nan
  | .negInf, _ => .negInf
  | .num _, .posInf => .posInf
  | .num _, .negInf => .negInf
  | .num a, .num b => .num (a + b)

/-- The JavaScript expression `v || 0`: NaN and zero are falsy and replaced
by zero, every other number is kept. -/
def jsOrZero : JsVal → JsVal
  | .nan => .num 0
  | .num q => if q = 0 then .num 0 else .num q
  | v => v

/-- Whether a comparator result makes `Array.prototype.sort` place the first
argument after the second: the result is a strictly positive number
(a NaN result is treated as `+0` per ECMAScript `CompareArrayElements`). -/
def jsPos : JsVal → Bool
  | .num q => decide (0 < q)
  | .posInf => true
  | _ => false

/-- Whitespace recognised by the JavaScript number grammar (ASCII subset). -/
def isJsWhitespace (c : Char) : Bool :=
  c = ' ' || c = '\t' || c = '\n' || c = '\r' || c = '\x0b' || c = '\x0c'

/-- JavaScript `String.prototype.trim`: strip leading and trailing
whitespace. -/
def jsTrim (s : String) : String :=
  ⟨((s.data.dropWhile isJsWhitespace).reverse.dropWhile isJsWhitespace).reverse⟩

/-- Lowercase one character (ASCII range, as relevant to this dataset). -/
def jsCharToLower (c : Char) : Char :=
  if 65 ≤ c.toNat ∧ c.toNat ≤ 90 then Char.ofNat (c.toNat + 32) else c

/-- JavaScript `String.prototype.toLowerCase` (ASCII range). -/
def jsToLower (s : String) : String :=
  ⟨s.data.map jsCharToLower⟩

/-- Lexicographic comparison of character lists by code unit. -/
def charListLt : List Char → List Char → Bool
  | [], [] => false
  | [], _ :: _ => true
  | _ :: _, [] => false
  | a :: as, b :: bs =>
    if a.toNat < b.toNat then true
    else if b.toNat < a.toNat then false
    else charListLt as bs

/-- The JavaScript `<` operator on strings: lexicographic by code unit. -/
def jsStrLt (a b : String) : Bool := charListLt a.data b.data

/-- Numeric value of a decimal digit character. -/
def digitVal (c : Char) : ℕ := c.toNat - 48

/-- Value of a string of decimal digit characters. -/
def digitsToNat (ds : List Char) : ℕ := ds.foldl (fun n c => 10 * n + digitVal c) 0

/-- Rational value of an integer digit part and a fractional digit part. -/
def ratOfDigits (ip fp : List Char) : ℚ :=
  ((digitsToNat ip * 10 ^ fp.length + digitsToNat fp : ℕ) : ℚ) / ((10 ^ fp.length : ℕ) : ℚ)

/-- Parse an unsigned decimal mantissa (`digits`, `digits.digits`, `digits.`,
or `.digits`) as a longest prefix, returning the value and the rest. -/
def parseMantissa (cs : List Char) : Option (ℚ × List Char) :=
  match cs.span Char.isDigit with
  | (ip, r1) =>
    match r1 with
    | '.' :: r =>
      match r.span Char.isDigit with
      | (fp, r2) => if ip.isEmpty ∧ fp.isEmpty then none else some (ratOfDigits ip fp, r2)
    | _ => if ip.isEmpty then none else some ((digitsToNat ip : ℚ), r1)

/-- Parse an optional exponent part (`e`/`E`, optional sign, digits). If no
digit follows the exponent marker, nothing is consumed. -/
def parseExponent (cs : List Char) : ℤ × List Char :=
  match cs with
  | c :: r =>
    if c = 'e' ∨ c = 'E' then
      match r with
      | '+' :: rr =>
        match rr.span Char.isDigit with
        | (ed, rest) => if ed.isEmpty then (0, cs) else ((digitsToNat ed : ℤ), rest)
      | '-' :: rr =>
        match rr.span Char.isDigit with
        | (ed, rest) => if ed.isEmpty then (0, cs) else (-(digitsToNat ed : ℤ), rest)
      | rr =>
        match rr.span Char.isDigit with
        | (ed, rest) => if ed.isEmpty then (0, cs) else ((digitsToNat ed : ℤ), rest)
    else (0, cs)
  | [] => (0, cs)

/-- Parse a signed JavaScript numeric literal prefix
(sign, then `Infinity` or a decimal mantissa with optional exponent),
returning the value and the unconsumed rest, or `none` if no prefix parses. -/
def parseNumLit (cs : List Char) : Option (JsVal × List Char) :=
  match cs with
  | '+' :: r =>
    if r.take 8 = "Infinity".data then some (.posInf, r.drop 8)
    else match parseMantissa r with
      | none => none
      | some (m, r1) =>
        match parseExponent r1 with
        | (e, r2) => some (.num (m * (10 : ℚ) ^ e), r2)
  | '-' :: r =>
    if r.take 8 = "Infinity".data then some (.negInf, r.drop 8)
    else match parseMantissa r with
      | none => none
      | some (m, r1) =>
        match parseExponent r1 with
        | (e, r2) => some (.num (-m * (10 : ℚ) ^ e), r2)
  | r =>
    if r.take 8 = "Infinity".data then some (.posInf, r.drop 8)
    else match parseMantissa r with
      | none => none
      | some (m, r1) =>
        match parseExponent r1 with
        | (e, r2) => some (.num (m * (10 : ℚ) ^ e), r2)

/-- JavaScript `parseFloat`: skip leading whitespace, parse the longest
numeric prefix, NaN when no prefix parses. -/
def jsParseFloat (s : String) : JsVal :=
  match parseNumLit (s.data.dropWhile isJsWhitespace) with
  | some (v, _) => v
  | none => .nan

/-- JavaScript `Number(x)` on an optional string: `undefined` gives NaN,
a whitespace-only string gives 0, otherwise the whole trimmed string must be
a numeric literal, else NaN. -/
def jsNumber : Option String → JsVal
  | none => .nan
  | some s =>
    let t := (s.data.dropWhile isJsWhitespace).reverse.dropWhile isJsWhitespace |>.reverse
    if t.isEmpty then .num 0
    else
      match parseNumLit t with
      | some (v, []) => v
      | _ => .nan

/-- The JavaScript expression `o || d` for an optional string `o`:
`undefined` and the empty string are falsy and replaced by the default. -/
def jsOrDefault (o : Option String) (d : String) : String :=
  match o with
  | none => d
  | some s => if s = "" then d else s

/-- JavaScript truthiness of an optional string: defined and non-empty. -/
def jsTruthyStr : Option String → Bool
  | none => false
  | some s => s ≠ ""

/-- The six categorical facets of the flood-control filter state. -/
inductive Facet where
  | InfraYear
  | Region
  | Province
  | TypeofWork
  | DistrictEngineeringOffice
  | LegislativeDistrict
deriving DecidableEq

/-- The facets in the order the source code declares and checks them. -/
def facetList : List Facet :=
  [.InfraYear, .Region, .Province, .TypeofWork, .DistrictEngineeringOffice, .LegislativeDistrict]

/-- `FilterState` from the source: one selected value (or `""` for unset)
per facet. -/
structure FilterState where
  InfraYear : String
  Region : String
  Province : String
  TypeofWork : String
  DistrictEngineeringOffice : String
  LegislativeDistrict : String
deriving DecidableEq

/-- Read one facet of a filter state. -/
def FilterState.get (filters : FilterState) : Facet → String
  | .InfraYear => filters.InfraYear
  | .Region => filters.Region
  | .Province => filters.Province
  | .TypeofWork => filters.TypeofWork
  | .DistrictEngineeringOffice => filters.DistrictEngineeringOffice
  | .LegislativeDistrict => filters.LegislativeDistrict

/-- The object spread `{ ...filters, [filterName]: value }`. -/
def FilterState.set (filters : FilterState) (filterName : Facet) (value : String) : FilterState :=
  match filterName with
  | .InfraYear => { filters with InfraYear := value }
  | .Region => { filters with Region := value }
  | .Province => { filters with Province := value }
  | .TypeofWork => { filters with TypeofWork := value }
  | .DistrictEngineeringOffice => { filters with DistrictEngineeringOffice := value }
  | .LegislativeDistrict => { filters with LegislativeDistrict := value }

/-- `handleFilterChange` from the source (identical in both pages): update one
facet; if the facet is Region, also reset Province to unset. -/
def handleFilterChange (filters : FilterState) (filterName : Facet) (value : String) : FilterState :=
  let newFilters := filters.set filterName value
  if filterName = Facet.Region then { newFilters with Province := "" } else newFilters

/-- Apply a sequence of filter-change operations in order. -/
def applyFilterChanges (filters : FilterState) (updates : List (Facet × String)) : FilterState :=
  updates.foldl (fun st u => handleFilterChange st u.1 u.2) filters

/-- `buildFilterString` from the table page: the Meilisearch filter predicate
for the current filter state. -/
def buildFilterString (filters : FilterState) : String :=
  let filterStrings : List String := ["type = \"flood_control\""]
  let filterStrings := if filters.InfraYear ≠ "" ∧ jsTrim filters.InfraYear ≠ "" then
    filterStrings ++ ["FundingYear = " ++ jsTrim filters.InfraYear] else filterStrings
  let filterStrings := if filters.Region ≠ "" ∧ jsTrim filters.Region ≠ "" then
    filterStrings ++ ["Region = \"" ++ jsTrim filters.Region ++ "\""] else filterStrings
  let filterStrings := if filters.Province ≠ "" ∧ jsTrim filters.Province ≠ "" then
    filterStrings ++ ["Province = \"" ++ jsTrim filters.Province ++ "\""] else filterStrings
  let filterStrings := if filters.TypeofWork ≠ "" ∧ jsTrim filters.TypeofWork ≠ "" then
    filterStrings ++ ["TypeofWork = \"" ++ jsTrim filters.TypeofWork ++ "\""] else filterStrings
  let filterStrings :=
    if filters.DistrictEngineeringOffice ≠ "" ∧ jsTrim filters.DistrictEngineeringOffice ≠ "" then
      filterStrings ++
        ["DistrictEngineeringOffice = \"" ++ jsTrim filters.DistrictEngineeringOffice ++ "\""]
    else filterStrings
  let filterStrings := if filters.LegislativeDistrict ≠ "" ∧ jsTrim filters.LegislativeDistrict ≠ "" then
    filterStrings ++ ["LegislativeDistrict = \"" ++ jsTrim filters.LegislativeDistrict ++ "\""]
    else filterStrings
  if filterStrings.length > 0 then String.intercalate " AND " filterStrings else ""

/-- Spec-side notion: a facet is set when its value is non-blank. -/
def facetIsSet (filters : FilterState) (f : Facet) : Prop := jsTrim (filters.get f) ≠ ""

/-- Spec-side equality clause for one facet: `field = "value"` for string
facets, and an unquoted value for the numeric year facet. -/
def facetClause (filters : FilterState) : Facet → String
  | .InfraYear => "FundingYear = " ++ jsTrim filters.InfraYear
  | .Region => "Region = \"" ++ jsTrim filters.Region ++ "\""
  | .Province => "Province = \"" ++ jsTrim filters.Province ++ "\""
  | .TypeofWork => "TypeofWork = \"" ++ jsTrim filters.TypeofWork ++ "\""
  | .DistrictEngineeringOffice =>
      "DistrictEngineeringOffice = \"" ++ jsTrim filters.DistrictEngineeringOffice ++ "\""
  | .LegislativeDistrict => "LegislativeDistrict = \"" ++ jsTrim filters.LegislativeDistrict ++ "\""

/-- Spec-side predicate, following the words of the specification: the fixed
record-type clause followed by exactly one equality clause per set facet
(unset facets omitted), joined by `AND`. -/
def specFilterPredicate (filters : FilterState) : String :=
  String.intercalate " AND "
    ("type = \"flood_control\"" ::
      (facetList.filter (fun f => jsTrim (filters.get f) ≠ "")).map (facetClause filters))

/-- `checkIfFiltersApplied` from the dashboard page: true when the search term
is non-blank or any facet value is non-blank. -/
def checkIfFiltersApplied (filters : FilterState) (searchTerm : String) : Bool :=
  if searchTerm ≠ "" ∧ jsTrim searchTerm ≠ "" then true
  else facetList.any (fun f => decide (filters.get f ≠ "" ∧ jsTrim (filters.get f) ≠ ""))

/-- One hit record returned by the search index, with the fields the table
and charts read (all optional, as in the source types). -/
structure FloodControlHit where
  GlobalID : Option String := none
  ProjectDescription : Option String := none
  InfraYear : Option String := none
  Region : Option String := none
  Province : Option String := none
  Municipality : Option String := none
  TypeofWork : Option String := none
  Contractor : Option String := none
  ContractCost : Option String := none
deriving DecidableEq

/-- The eight sortable table columns. -/
inductive SortField where
  | ProjectDescription
  | InfraYear
  | Region
  | Province
  | Municipality
  | TypeofWork
  | Contractor
  | ContractCost
deriving DecidableEq

/-- The dynamic field access `hit[sortField]`. -/
def FloodControlHit.getField (h : FloodControlHit) : SortField → Option String
  | .ProjectDescription => h.ProjectDescription
  | .InfraYear => h.InfraYear
  | .Region => h.Region
  | .Province => h.Province
  | .Municipality => h.Municipality
  | .TypeofWork => h.TypeofWork
  | .Contractor => h.Contractor
  | .ContractCost => h.ContractCost

/-- Sort direction of the table view. -/
inductive SortDirection where
  | asc
  | desc
deriving DecidableEq

/-- The comparator passed to `sort` in `sortedHits`: `ContractCost` is
compared by `parseFloat(value || '0')` difference, every other field by the
lowercased string form (`-1`/`1`/`0`). -/
def hitComparator (sortField : SortField) (sortDirection : SortDirection)
    (a b : FloodControlHit) : JsVal :=
  if sortField = SortField.ContractCost then
    let costA := jsParseFloat (jsOrDefault (a.getField sortField) "0")
    let costB := jsParseFloat (jsOrDefault (b.getField sortField) "0")
    match sortDirection with
    | .asc => jsSub costA costB
    | .desc => jsSub costB costA
  else
    let valueA := jsToLower ((a.getField sortField).getD "")
    let valueB := jsToLower ((b.getField sortField).getD "")
    if jsStrLt valueA valueB then (match sortDirection with | .asc => .num (-1) | .desc => .num 1)
    else if jsStrLt valueB valueA then (match sortDirection with | .asc => .num 1 | .desc => .num (-1))
    else .num 0

/-- Stable insertion mirroring ECMAScript sort: `x` is placed before the first
element against which the comparator result is not positive. -/
def jsInsert {α : Type} (cmp : α → α → JsVal) (x : α) : List α → List α
  | [] => [x]
  | y :: ys => if jsPos (cmp x y) then y :: jsInsert cmp x ys else x :: y :: ys

/-- Stable sort by a JavaScript comparator (model of `[...arr].sort(cmp)`). -/
def jsSortBy {α : Type} (cmp : α → α → JsVal) (l : List α) : List α :=
  l.foldr (jsInsert cmp) []

/-- `sortedHits` from the table page: the fetched hits sorted by the current
sort field and direction. -/
def sortedHits (sortField : SortField) (sortDirection : SortDirection)
    (hits : List FloodControlHit) : List FloodControlHit :=
  jsSortBy (hitComparator sortField sortDirection) hits

/-- `handleSort` from the table page: clicking a column toggles the direction
on the active column and otherwise activates the column ascending. -/
def handleSort (sortField : SortField) (sortDirection : SortDirection)
    (field : SortField) : SortField × SortDirection :=
  if sortField = field then
    (sortField, match sortDirection with | .asc => .desc | .desc => .asc)
  else (field, .asc)

/-- The parsed cost key the comparator uses for `ContractCost`. -/
def costKey (h : FloodControlHit) : JsVal :=
  jsParseFloat (jsOrDefault (h.getField .ContractCost) "0")

/-- Comparator keys: the parsed cost for `ContractCost`, the lowercased
string form for every other field. -/
inductive SortKey where
  | jv (v : JsVal)
  | str (s : String)
deriving DecidableEq

/-- The key by which the comparator compares a given field. -/
def sortKey (f : SortField) (h : FloodControlHit) : SortKey :=
  if f = SortField.ContractCost then .jv (costKey h)
  else .str (jsToLower ((h.getField f).getD ""))

/-- Spec-side three-way case-insensitive lexicographic string comparison. -/
def specStringCompare (x y : String) : JsVal :=
  if jsStrLt x y then .num (-1) else if jsStrLt y x then .num 1 else .num 0

/-- `hitsPerPage` of the table view. -/
def hitsPerPage : ℕ := 20

/-- `Array.prototype.slice(s, e)` on lists (for indices in range). -/
def jsSlice {α : Type} (l : List α) (s e : ℕ) : List α := (l.drop s).take (e - s)

/-- `paginatedHits` from the table page:
`sortedHits.slice(page*20, min(page*20+20, length))`. -/
def paginatedHits (sorted : List FloodControlHit) (currentPage : ℕ) : List FloodControlHit :=
  let startIndex := currentPage * hitsPerPage
  let endIndex := min (startIndex + hitsPerPage) sorted.length
  jsSlice sorted startIndex endIndex

/-- `totalPages = Math.ceil(length / hitsPerPage)`. -/
def totalPages (len : ℕ) : ℕ := (len + hitsPerPage - 1) / hitsPerPage

/-- The pagination controls: previous, next, and the up-to-five numbered page
buttons (indexed by their position in the button row). -/
inductive PageAction where
  | prevPage
  | nextPage
  | pageButton (i : Fin 5)

/-- Effect of one pagination control on the current page, for a fixed total
page count. Previous is `max(0, cur-1)`, next is `min(total-1, cur+1)`; a
numbered button shows `pageToShow` as computed in the source and is only
rendered when the controls are shown (`total > 1`), the button index is below
`min(5, total)`, and `pageToShow < total`. -/
def applyPageAction (total : ℕ) (currentPage : ℕ) : PageAction → ℕ
  | .prevPage => currentPage - 1
  | .nextPage => min (total - 1) (currentPage + 1)
  | .pageButton i =>
    if total ≤ 1 then currentPage
    else if (i : ℕ) < min 5 total then
      let pageToShow :=
        if total ≤ 5 then (i : ℕ)
        else if currentPage < 3 then (i : ℕ)
        else if total - 4 < currentPage then total - 5 + (i : ℕ)
        else currentPage - 2 + (i : ℕ)
      if pageToShow < total then pageToShow else currentPage
    else currentPage

/-- The page reached from page 0 after a sequence of pagination control
activations. -/
def applyPageActions (total : ℕ) (acts : List PageAction) : ℕ :=
  acts.foldl (applyPageAction total) 0

/-- One `{value, count}` lookup-table entry. -/
structure DataItem where
  value : String
  count : ℕ
deriving DecidableEq

/-- `freq[k] = (freq[k] || 0) + 1` on an insertion-ordered association list
(the model of a plain-object frequency counter). -/
def bumpFreq : List (String × ℕ) → String → List (String × ℕ)
  | [], k => [(k, 1)]
  | (k', c) :: rest, k =>
    if k' = k then (k', c + 1) :: rest else (k', c) :: bumpFreq rest k

/-- The count-descending comparator `(a, b) => b.count - a.count` used by the
top-10 charts, generic over how the count is read. -/
def countDescCmp {α : Type} (count : α → ℕ) (a b : α) : JsVal :=
  .num ((count b : ℚ) - (count a : ℚ))

/-- The region frequency counter of `RegionChart`: one count per non-blank
region value, in first-encounter order. -/
def regionFrequency (hits : List FloodControlHit) : List (String × ℕ) :=
  hits.foldl (fun acc h =>
    match h.Region with
    | some region => if region ≠ "" ∧ jsTrim region ≠ "" then bumpFreq acc region else acc
    | none => acc) []

/-- The live chart data of `RegionChart`: frequency entries sorted by count
descending, truncated to the top 10. -/
def regionChartLive (hits : List FloodControlHit) : List (String × ℕ) :=
  (jsSortBy (countDescCmp Prod.snd) (regionFrequency hits)).take 10

/-- The type-of-work frequency counter of `TypeOfWorkChart`. -/
def typeOfWorkFrequency (hits : List FloodControlHit) : List (String × ℕ) :=
  hits.foldl (fun acc h =>
    match h.TypeofWork with
    | some t => if t ≠ "" ∧ jsTrim t ≠ "" then bumpFreq acc t else acc
    | none => acc) []

/-- The live chart data of `TypeOfWorkChart`: frequency entries sorted by
count descending, truncated to the top 10. -/
def typeOfWorkChartLive (hits : List FloodControlHit) : List (String × ℕ) :=
  (jsSortBy (countDescCmp Prod.snd) (typeOfWorkFrequency hits)).take 10

/-- A contractor chart entry: display name (truncated to 30 characters),
project count, and the full name. -/
structure ContractorEntry where
  name : String
  Projects : ℕ
  fullName : String
deriving DecidableEq

/-- Truncate a contractor name longer than 30 characters to its first 30
characters followed by an ellipsis, as the chart display does. -/
def truncateName (s : String) : String :=
  if 30 < s.length then (s.data.take 30).asString ++ "..." else s

/-- The contractor frequency counter of `ContractorChart`. -/
def contractorFrequency (hits : List FloodControlHit) : List (String × ℕ) :=
  hits.foldl (fun acc h =>
    match h.Contractor with
    | some c => if c ≠ "" ∧ jsTrim c ≠ "" then bumpFreq acc c else acc
    | none => acc) []

/-- The live chart data of `ContractorChart`: frequency entries mapped to
display entries, sorted by count descending, truncated to the top 10. -/
def contractorChartLive (hits : List FloodControlHit) : List ContractorEntry :=
  (jsSortBy (countDescCmp ContractorEntry.Projects)
    ((contractorFrequency hits).map (fun e => ⟨truncateName e.1, e.2, e.1⟩))).take 10

/-- Model of `localeCompare` as a three-way string comparison. -/
def strCompare (x y : String) : JsVal :=
  if jsStrLt x y then .num (-1) else if jsStrLt y x then .num 1 else .num 0

/-- The year frequency counter of `YearlyChart` (the guard is plain
truthiness of the year value, with no trimming). -/
def yearFrequency (hits : List FloodControlHit) : List (String × ℕ) :=
  hits.foldl (fun acc h =>
    match h.InfraYear with
    | some y => if y ≠ "" then bumpFreq acc y else acc
    | none => acc) []

/-- The live chart data of `YearlyChart`: year frequencies sorted by year
name ascending. -/
def yearlyChartLive (hits : List FloodControlHit) : List (String × ℕ) :=
  jsSortBy (fun a b => strCompare a.1 b.1) (yearFrequency hits)

/-- The snapshot series of `YearlyChart`: the static lookup table sorted by
value ascending, mapped to `(name, count)` points. It depends only on the
lookup table. -/
def yearlySnapshotSeries (lookup : List DataItem) : List (String × ℕ) :=
  (jsSortBy (fun a b => strCompare a.value b.value) lookup).map (fun item => (item.value, item.count))

/-- `YearlyChart`: live series when the total hit count differs from 0 and
from 9855, otherwise the pre-computed snapshot series. -/
def yearlyChartData (lookup : List DataItem) (totalHits : ℕ)
    (hits : List FloodControlHit) : List (String × ℕ) :=
  if totalHits ≠ 0 ∧ totalHits ≠ 9855 then yearlyChartLive hits
  else yearlySnapshotSeries lookup

/-- The three summary statistics of the dashboard. -/
structure SummaryStats where
  totalProjects : ℕ
  totalCost : JsVal
  uniqueContractors : ℕ
deriving DecidableEq

/-- The hardcoded snapshot statistics (`defaultStats` in the source). -/
def defaultStats : SummaryStats :=
  { totalProjects := 9855, totalCost := .num 547603497105, uniqueContractors := 2409 }

/-- The unique-contractor count of `DashboardStatistics`:
`new Set(hits.map(h => h.Contractor).filter(Boolean)).size`. -/
def dashboardUniqueContractors (hits : List FloodControlHit) : ℕ :=
  (((hits.map (fun h => h.Contractor)).filter jsTruthyStr).dedup).length

/-- The contractor guard of `ResultsStatistics`:
`hit.Contractor && hit.Contractor.trim() !== ''`. -/
def contractorNonBlank (h : FloodControlHit) : Bool :=
  match h.Contractor with
  | some s => decide (s ≠ "" ∧ jsTrim s ≠ "")
  | none => false

/-- The unique-contractor count of `ResultsStatistics` (table view):
`new Set(hits.filter(nonblank).map(h => h.Contractor)).size`. -/
def tableUniqueContractors (hits : List FloodControlHit) : ℕ :=
  (((hits.filter contractorNonBlank).map (fun h => h.Contractor)).dedup).length

/-- `DashboardStatistics`: live statistics when the total hit count differs
from 0 and from the snapshot total, otherwise the hardcoded snapshot. -/
def dashboardStatistics (totalHits : ℕ) (hits : List FloodControlHit) : SummaryStats :=
  if totalHits ≠ 0 ∧ totalHits ≠ defaultStats.totalProjects then
    { totalProjects := totalHits,
      totalCost := hits.foldl (fun sum h => jsAdd sum (jsOrZero (jsNumber h.ContractCost))) (.num 0),
      uniqueContractors := dashboardUniqueContractors hits }
  else defaultStats

/-- Which data source a view renders from. -/
inductive StatsSource where
  | snapshot
  | live
deriving DecidableEq

/-- The statistics block of the dashboard page: the `DashboardStatistics`
component under a live query when filters are applied, otherwise the static
snapshot markup with the hardcoded values. -/
def renderedStatistics (filters : FilterState) (searchTerm : String) (totalHits : ℕ)
    (hits : List FloodControlHit) : StatsSource × SummaryStats :=
  if checkIfFiltersApplied filters searchTerm then (.live, dashboardStatistics totalHits hits)
  else (.snapshot, defaultStats)

/-- User-facing notices raised by the export handler. -/
inductive ExportAlert where
  | exportSuccess
  | exportError
deriving DecidableEq

/-- The observable outcome of one export invocation: the produced file (as
its ordered record rows) if any, the notices shown, and the final state of
the exporting flag. -/
structure ExportRun where
  outputFile : Option (List FloodControlHit)
  alerts : List ExportAlert
  isExporting : Bool
deriving DecidableEq

/-- Modelled from the spec: `exportMeilisearchData` (src/lib/exportData) is
not in the source tree. Per the spec, it retrieves all matching records page
by page, strictly sequentially; a single failed page retrieval aborts the
whole export with an error and no file is produced; on success the pages are
accumulated in order into one record sequence. The argument is the sequence
of page-retrieval results the service would deliver. -/
def exportMeilisearchData (pages : List (Except String (List FloodControlHit))) :
    Except String (List FloodControlHit) :=
  match pages with
  | [] => .ok []
  | .error e :: _ => .error e
  | .ok h :: rest =>
    match exportMeilisearchData rest with
    | .error e => .error e
    | .ok t => .ok (h ++ t)

/-- `handleExportData` from the source: set the exporting flag, attempt the
export, show exactly one success or one failure notice, and reset the flag in
the `finally` block on every path. -/
def handleExportData (pages : List (Except String (List FloodControlHit))) : ExportRun :=
  match exportMeilisearchData pages with
  | .ok recs => { outputFile := some recs, alerts := [.exportSuccess], isExporting := false }
  | .error _ => { outputFile := none, alerts := [.exportError], isExporting := false }

/-- The filter state with every facet unset. -/
def emptyFilters : FilterState := ⟨"", "", "", "", "", ""⟩

/-- The contractor sample `["A", "", " ", "B", "A"]` from the specification,
as hit records. -/
def contractorSampleHits : List FloodControlHit :=
  [{ Contractor := some "A" }, { Contractor := some "" }, { Contractor := some " " },
   { Contractor := some "B" }, { Contractor := some "A" }]

/-- Two hits with different descriptions and equal contract costs. -/
def tieHitA : FloodControlHit := { ProjectDescription := some "A", ContractCost := some "100" }

/-- Second of the two equal-cost hits. -/
def tieHitB : FloodControlHit := { ProjectDescription := some "B", ContractCost := some "100" }

/-- A hit whose contract cost string has no parsable numeric prefix. -/
def unparsableCostHit : FloodControlHit := { ContractCost := some "abc" }

/-- A hit with a negative contract cost. -/
def negativeCostHit : FloodControlHit := { ContractCost := some "-5" }

/-- Ten hits that all carry the same region value. -/
def sameRegionHits : List FloodControlHit :=
  List.replicate 10 { Region := some "A" }

/-- Four hits over two region values with tied frequencies. -/
def tiedRegionHits : List FloodControlHit :=
  [{ Region := some "A" }, { Region := some "A" },
   { Region := some "B" }, { Region := some "B" }]

/-- Three hits with pairwise distinct contract costs, for witnesses. -/
def distinctCostHits : List FloodControlHit :=
  [{ ProjectDescription := some "A", ContractCost := some "300" },
   { ProjectDescription := some "B", ContractCost := some "100" },
   { ProjectDescription := some "C", ContractCost := some "200" }]

/-- A batch of 45 pairwise distinct hit records, for the pagination
scenario. -/
def hits45 : List FloodControlHit :=
  (List.range 45).map (fun i => { GlobalID := some (toString i) })

/-! ## Helper lemmas -/

theorem jsTrim_empty : jsTrim "" = "" := rfl

theorem blank_guard_iff (s : String) : (s ≠ "" ∧ jsTrim s ≠ "") ↔ jsTrim s ≠ "" := by
  constructor
  · exact And.right
  · intro h
    refine ⟨fun hs => h ?_, h⟩
    subst hs
    rfl

theorem exportMeilisearchData_error_of_mem (pages : List (Except String (List FloodControlHit)))
    (e : String) (he : Except.error e ∈ pages) :
    ∃ e2, exportMeilisearchData pages = .error e2 := by
  induction pages with
  | nil => cases he
  | cons p rest ih =>
    cases p with
    | error e1 => exact ⟨e1, rfl⟩
    | ok h =>
      rcases List.mem_cons.mp he with h1 | h2
      · cases h1
      · obtain ⟨e2, hh⟩ := ih h2
        exact ⟨e2, by simp [exportMeilisearchData, hh]⟩

/-! ## Claim theorems (filter predicate, filter state, export, snapshot switching) -/

/-- Claim C1: for every filter state, the generated Meilisearch predicate is
exactly the fixed record-type clause followed by one equality clause per set
facet (in declaration order, unset facets omitted), joined by ` AND `, with
string facet values quoted and the numeric year value unquoted — that is, the
source `buildFilterString` coincides with the predicate described by the
specification. -/
theorem c1_filter_predicate (filters : FilterState) :
    buildFilterString filters = specFilterPredicate filters := by
  simp only [buildFilterString, specFilterPredicate, blank_guard_iff, facetList, facetClause,
    FilterState.get]
  by_cases h1 : jsTrim filters.InfraYear = "" <;>
    by_cases h2 : jsTrim filters.Region = "" <;>
      by_cases h3 : jsTrim filters.Province = "" <;>
        by_cases h4 : jsTrim filters.TypeofWork = "" <;>
          by_cases h5 : jsTrim filters.DistrictEngineeringOffice = "" <;>
            by_cases h6 : jsTrim filters.LegislativeDistrict = "" <;>
              simp [h1, h2, h3, h4, h5, h6, facetClause]

/-- Claim C2: after any sequence of filter changes, setting Region resets
Province to unset regardless of its prior value; setting any facet other than
Region changes only that facet and leaves every other facet unchanged. -/
theorem c2_region_resets_province (filters : FilterState) (updates : List (Facet × String))
    (v : String) (f : Facet) (hf : f ≠ Facet.Region) :
    (handleFilterChange (applyFilterChanges filters updates) Facet.Region v).Province = "" ∧
    (handleFilterChange filters f v).get f = v ∧
    ∀ g, g ≠ f → (handleFilterChange filters f v).get g = filters.get g := by
  refine ⟨rfl, ?_, ?_⟩
  · cases f <;> simp [handleFilterChange, FilterState.set, FilterState.get]
  · intro g hg
    cases f <;> cases g <;>
      simp_all [handleFilterChange, FilterState.set, FilterState.get]

/-- Claim C3: if any page retrieval fails, the export produces no output file
and shows exactly one notice, which is the failure notice; and on every
execution the exporting flag ends reset. -/
theorem c3_export_abort_and_cleanup (pages : List (Except String (List FloodControlHit)))
    (e : String) (he : Except.error e ∈ pages) :
    (handleExportData pages).outputFile = none ∧
    (handleExportData pages).alerts = [ExportAlert.exportError] ∧
    ∀ pages2, (handleExportData pages2).isExporting = false := by
  obtain ⟨e2, herr⟩ := exportMeilisearchData_error_of_mem pages e he
  refine ⟨?_, ?_, ?_⟩
  · simp [handleExportData, herr]
  · simp [handleExportData, herr]
  · intro pages2
    cases hx : exportMeilisearchData pages2 <;> simp [handleExportData, hx]

/-- Claim C4: with an empty search string and every facet unset, the rendered
statistics come from the static snapshot (not from a live query) and equal the
pre-computed values: 9855 projects, total cost 547603497105, and 2409 unique
contractors. -/
theorem c4_snapshot_statistics (filters : FilterState) (searchTerm : String) (totalHits : ℕ)
    (hits : List FloodControlHit) (hs : searchTerm = "") (hf : ∀ f, filters.get f = "") :
    renderedStatistics filters searchTerm totalHits hits = (StatsSource.snapshot, defaultStats) ∧
    defaultStats =
      { totalProjects := 9855, totalCost := .num 547603497105, uniqueContractors := 2409 } := by
  subst hs
  refine ⟨?_, rfl⟩
  simp [renderedStatistics, checkIfFiltersApplied, facetList, hf]

/-- Claim C10: the dashboard statistics and the yearly chart pick snapshot
versus live data solely from the query result total: whenever the total hit
count is 0 or exactly 9855, they render the pre-computed snapshot aggregates
(whatever hit sample the query returned, and regardless of any active
filters, which they do not consult at all). -/
theorem c10_snapshot_on_zero_or_9855 (lookup : List DataItem) (totalHits : ℕ)
    (hits : List FloodControlHit) (h : totalHits = 0 ∨ totalHits = 9855) :
    dashboardStatistics totalHits hits = defaultStats ∧
    yearlyChartData lookup totalHits hits = yearlySnapshotSeries lookup := by
  rcases h with rfl | rfl <;>
    simp [dashboardStatistics, yearlyChartData, defaultStats]

/-! ## Generic facts about the sort model -/

theorem jsInsert_perm {α : Type} (cmp : α → α → JsVal) (x : α) (l : List α) :
    (jsInsert cmp x l).Perm (x :: l) := by
  induction l with
  | nil => exact List.Perm.refl _
  | cons y ys ih =>
    cases hp : jsPos (cmp x y) with
    | true =>
      simp only [jsInsert, hp, if_true]
      exact (ih.cons y).trans (List.Perm.swap x y ys)
    | false =>
      simp only [jsInsert, hp]
      exact List.Perm.refl _

theorem jsSortBy_perm {α : Type} (cmp : α → α → JsVal) (l : List α) :
    (jsSortBy cmp l).Perm l := by
  induction l with
  | nil => exact List.Perm.refl _
  | cons x xs ih => exact (jsInsert_perm cmp x (jsSortBy cmp xs)).trans (ih.cons x)

theorem mem_jsInsert {α : Type} (cmp : α → α → JsVal) (x y : α) (l : List α) :
    y ∈ jsInsert cmp x l ↔ y ∈ x :: l :=
  (jsInsert_perm cmp x l).mem_iff

theorem mem_jsSortBy {α : Type} (cmp : α → α → JsVal) (y : α) (l : List α) :
    y ∈ jsSortBy cmp l ↔ y ∈ l :=
  (jsSortBy_perm cmp l).mem_iff

theorem jsInsert_pairwise {α : Type} (cmp : α → α → JsVal) (P : α → Prop)
    (hasym : ∀ a b, jsPos (cmp a b) = true → jsPos (cmp b a) = false)
    (htrans : ∀ a b c, P a → P b → P c → jsPos (cmp a b) = false → jsPos (cmp b c) = false →
      jsPos (cmp a c) = false)
    (x : α) (l : List α) (hx : P x) (hl : ∀ a ∈ l, P a)
    (h : l.Pairwise (fun a b => jsPos (cmp a b) = false)) :
    (jsInsert cmp x l).Pairwise (fun a b => jsPos (cmp a b) = false) := by
  induction l with
  | nil => simp [jsInsert]
  | cons y ys ih =>
    rw [List.pairwise_cons] at h
    obtain ⟨h1, h2⟩ := h
    cases hp : jsPos (cmp x y) with
    | true =>
      simp only [jsInsert, hp, if_true]
      rw [List.pairwise_cons]
      refine ⟨?_, ih (fun a ha => hl a (List.mem_cons_of_mem y ha)) h2⟩
      intro b hb
      rcases List.mem_cons.mp ((mem_jsInsert cmp x b ys).mp hb) with hbx | hbys
      · rw [hbx]
        exact hasym x y hp
      · exact h1 b hbys
    | false =>
      simp only [jsInsert, hp, Bool.false_eq_true, if_false]
      rw [List.pairwise_cons]
      refine ⟨?_, List.Pairwise.cons h1 h2⟩
      intro b hb
      rcases List.mem_cons.mp hb with hby | hbys
      · rw [hby]
        exact hp
      · exact htrans x y b hx (hl y (List.mem_cons_self y ys))
          (hl b (List.mem_cons_of_mem y hbys)) hp (h1 b hbys)

theorem jsSortBy_pairwise {α : Type} (cmp : α → α → JsVal) (P : α → Prop)
    (hasym : ∀ a b, jsPos (cmp a b) = true → jsPos (cmp b a) = false)
    (htrans : ∀ a b c, P a → P b → P c → jsPos (cmp a b) = false → jsPos (cmp b c) = false →
      jsPos (cmp a c) = false)
    (l : List α) (hl : ∀ a ∈ l, P a) :
    (jsSortBy cmp l).Pairwise (fun a b => jsPos (cmp a b) = false) := by
  induction l with
  | nil => simp [jsSortBy]
  | cons x xs ih =>
    refine jsInsert_pairwise cmp P hasym htrans x (jsSortBy cmp xs) (hl x (List.mem_cons_self x xs))
      ?_ (ih (fun a ha => hl a (List.mem_cons_of_mem x ha)))
    intro a ha
    exact hl a (List.mem_cons_of_mem x ((mem_jsSortBy cmp a xs).mp ha))

theorem jsInsert_filter {α κ : Type} [DecidableEq κ] (cmp : α → α → JsVal) (key : α → κ)
    (x : α) (l : List α) (k : κ)
    (hk : ∀ y, jsPos (cmp x y) = true → key x ≠ key y) :
    (jsInsert cmp x l).filter (fun a => key a = k) =
      if key x = k then x :: l.filter (fun a => key a = k)
      else l.filter (fun a => key a = k) := by
  induction l with
  | nil => by_cases hx : key x = k <;> simp [jsInsert, hx]
  | cons y ys ih =>
    cases hp : jsPos (cmp x y) with
    | true =>
      have hxy := hk y hp
      by_cases hx : key x = k
      · have hy : ¬(key y = k) := fun hyk => hxy (hx.trans hyk.symm)
        simp [jsInsert, hp, List.filter_cons, hy, ih, hx]
      · simp [jsInsert, hp, List.filter_cons, ih, hx]
    | false =>
      by_cases hx : key x = k <;> simp [jsInsert, hp, List.filter_cons, hx]

theorem jsSortBy_filter {α κ : Type} [DecidableEq κ] (cmp : α → α → JsVal) (key : α → κ)
    (hkey : ∀ a b, jsPos (cmp a b) = true → key a ≠ key b) (l : List α) (k : κ) :
    (jsSortBy cmp l).filter (fun a => key a = k) = l.filter (fun a => key a = k) := by
  induction l with
  | nil => rfl
  | cons x xs ih =>
    have he : jsSortBy cmp (x :: xs) = jsInsert cmp x (jsSortBy cmp xs) := rfl
    rw [he, jsInsert_filter cmp key x (jsSortBy cmp xs) k (fun y => hkey x y)]
    by_cases hx : key x = k <;> simp [List.filter_cons, hx, ih]

theorem jsInsert_all_pos {α : Type} (cmp : α → α → JsVal) (x : α) (l : List α)
    (h : ∀ z ∈ l, jsPos (cmp x z) = true) :
    jsInsert cmp x l = l ++ [x] := by
  induction l with
  | nil => rfl
  | cons z zs ih =>
    have hz := h z (List.mem_cons_self z zs)
    simp only [jsInsert, hz, if_true, List.cons_append]
    rw [ih (fun w hw => h w (List.mem_cons_of_mem z hw))]

theorem jsInsert_append_last {α : Type} (cmp : α → α → JsVal) (x y : α) (l : List α)
    (h : jsPos (cmp x y) = false) :
    jsInsert cmp x (l ++ [y]) = jsInsert cmp x l ++ [y] := by
  induction l with
  | nil => simp [jsInsert, h]
  | cons z zs ih =>
    cases hz : jsPos (cmp x z) with
    | true => simp [jsInsert, hz, ih]
    | false => simp [jsInsert, hz]

/-! ## Order facts about JavaScript comparator values -/

theorem jsSub_self_nonpos (u : JsVal) : jsPos (jsSub u u) = false := by
  cases u <;> simp [jsSub, jsPos]

theorem jsSub_pos_ne (u v : JsVal) (h : jsPos (jsSub u v) = true) : u ≠ v := by
  intro he
  subst he
  rw [jsSub_self_nonpos] at h
  cases h

theorem jsPos_jsSub_asym (u v : JsVal) (h : jsPos (jsSub u v) = true) :
    jsPos (jsSub v u) = false := by
  cases u <;> cases v <;> simp_all [jsSub, jsPos] <;> linarith

theorem jsSub_nonpos_trans (u v w : JsVal) (hu : u ≠ JsVal.nan) (hv : v ≠ JsVal.nan)
    (hw : w ≠ JsVal.nan) (h1 : jsPos (jsSub u v) = false) (h2 : jsPos (jsSub v w) = false) :
    jsPos (jsSub u w) = false := by
  cases u <;> cases v <;> cases w <;> simp_all [jsSub, jsPos] <;> linarith

theorem jsSub_pos_of_nonpos_ne (u v : JsVal) (hu : u ≠ JsVal.nan) (hv : v ≠ JsVal.nan)
    (h1 : jsPos (jsSub u v) = false) (hne : u ≠ v) :
    jsPos (jsSub v u) = true := by
  cases u <;> cases v <;> simp_all [jsSub, jsPos]
  all_goals exact lt_of_le_of_ne (by assumption) (by assumption)

theorem jsSub_pos_trans_nonpos (u v w : JsVal) (hu : u ≠ JsVal.nan) (hv : v ≠ JsVal.nan)
    (hw : w ≠ JsVal.nan) (h1 : jsPos (jsSub v u) = true) (h2 : jsPos (jsSub v w) = false) :
    jsPos (jsSub w u) = true := by
  cases u <;> cases v <;> cases w <;> simp_all [jsSub, jsPos] <;> linarith

/-! ## The cost comparator and the reversal property -/

theorem hitComparator_cost_asc (a b : FloodControlHit) :
    hitComparator .ContractCost .asc a b = jsSub (costKey a) (costKey b) := rfl

theorem hitComparator_cost_desc (a b : FloodControlHit) :
    hitComparator .ContractCost .desc a b = jsSub (costKey b) (costKey a) := rfl

theorem charListLt_irrefl (l : List Char) : charListLt l l = false := by
  induction l with
  | nil => rfl
  | cons c cs ih => simp [charListLt, ih]

theorem charListLt_asymm (l1 l2 : List Char) (h : charListLt l1 l2 = true) :
    charListLt l2 l1 = false := by
  induction l1 generalizing l2 with
  | nil =>
    cases l2 with
    | nil => simpa [charListLt] using h
    | cons b bs => simp [charListLt]
  | cons a as ih =>
    cases l2 with
    | nil => simpa [charListLt] using h
    | cons b bs =>
      by_cases hab : a.toNat < b.toNat
      · have hba : ¬b.toNat < a.toNat := by omega
        simp [charListLt, hab, hba]
      · by_cases hba : b.toNat < a.toNat
        · simp [charListLt, hab, hba] at h
        · simp only [charListLt, hab, hba, if_false] at h ⊢
          exact ih bs h

theorem jsStrLt_asymm (x y : String) (h : jsStrLt x y = true) : jsStrLt y x = false :=
  charListLt_asymm x.data y.data h

theorem jsStrLt_irrefl (x : String) : jsStrLt x x = false := charListLt_irrefl x.data

theorem sortKey_ne_of_pos (f : SortField) (dir : SortDirection) (a b : FloodControlHit)
    (h : jsPos (hitComparator f dir a b) = true) : sortKey f a ≠ sortKey f b := by
  intro hk
  by_cases hf : f = SortField.ContractCost
  · subst hf
    simp only [sortKey, if_true, reduceIte, SortKey.jv.injEq] at hk
    cases dir with
    | asc =>
      rw [hitComparator_cost_asc, hk, jsSub_self_nonpos] at h
      cases h
    | desc =>
      rw [hitComparator_cost_desc, hk, jsSub_self_nonpos] at h
      cases h
  · simp only [sortKey, hf, if_false, SortKey.str.injEq] at hk
    simp only [hitComparator, hf, if_false] at h
    rw [hk] at h
    simp [jsStrLt_irrefl, jsPos] at h

theorem insertD_reverse (x : FloodControlHit) (s : List FloodControlHit)
    (hsort : s.Pairwise (fun a b => jsPos (jsSub (costKey a) (costKey b)) = false))
    (hx : costKey x ≠ JsVal.nan) (hs : ∀ y ∈ s, costKey y ≠ JsVal.nan)
    (hd : ∀ y ∈ s, costKey x ≠ costKey y) :
    jsInsert (hitComparator .ContractCost .desc) x s.reverse
      = (jsInsert (hitComparator .ContractCost .asc) x s).reverse := by
  induction s with
  | nil => rfl
  | cons y ys ih =>
    rw [List.pairwise_cons] at hsort
    obtain ⟨h1, h2⟩ := hsort
    have hy : costKey y ≠ JsVal.nan := hs y (List.mem_cons_self y ys)
    have hxy : costKey x ≠ costKey y := hd y (List.mem_cons_self y ys)
    by_cases hp : jsPos (jsSub (costKey x) (costKey y)) = true
    · have hpd : jsPos (hitComparator .ContractCost .desc x y) = false := by
        rw [hitComparator_cost_desc]
        exact jsPos_jsSub_asym _ _ hp
      have e1 : jsInsert (hitComparator .ContractCost .asc) x (y :: ys)
          = y :: jsInsert (hitComparator .ContractCost .asc) x ys := by
        simp only [jsInsert, hitComparator_cost_asc, hp, if_true]
      rw [e1, List.reverse_cons, List.reverse_cons,
        jsInsert_append_last (hitComparator .ContractCost .desc) x y ys.reverse hpd,
        ih h2 (fun z hz => hs z (List.mem_cons_of_mem y hz))
          (fun z hz => hd z (List.mem_cons_of_mem y hz))]
    · have hp' : jsPos (jsSub (costKey x) (costKey y)) = false := by
        revert hp
        cases jsPos (jsSub (costKey x) (costKey y)) <;> simp
      have hyx : jsPos (jsSub (costKey y) (costKey x)) = true :=
        jsSub_pos_of_nonpos_ne _ _ hx hy hp' hxy
      have hall : ∀ z ∈ (y :: ys).reverse,
          jsPos (hitComparator .ContractCost .desc x z) = true := by
        intro z hz
        rw [List.mem_reverse] at hz
        rw [hitComparator_cost_desc]
        rcases List.mem_cons.mp hz with hzy | hzys
        · rw [hzy]
          exact hyx
        · exact jsSub_pos_trans_nonpos (costKey x) (costKey y) (costKey z) hx hy
            (hs z (List.mem_cons_of_mem y hzys)) hyx (h1 z hzys)
      have e1 : jsInsert (hitComparator .ContractCost .asc) x (y :: ys) = x :: y :: ys := by
        simp only [jsInsert, hitComparator_cost_asc, hp', Bool.false_eq_true, if_false]
      rw [e1, jsInsert_all_pos (hitComparator .ContractCost .desc) x ((y :: ys).reverse) hall,
        List.reverse_cons]
      simp

theorem sortedHits_cost_sorted (l : List FloodControlHit)
    (hnn : ∀ h ∈ l, costKey h ≠ JsVal.nan) :
    (sortedHits .ContractCost .asc l).Pairwise
      (fun a b => jsPos (jsSub (costKey a) (costKey b)) = false) := by
  have h := jsSortBy_pairwise (hitComparator .ContractCost .asc)
    (fun h => costKey h ≠ JsVal.nan) ?_ ?_ l hnn
  · exact h.imp (fun hab => by rwa [hitComparator_cost_asc] at hab)
  · intro a b hab
    rw [hitComparator_cost_asc] at hab ⊢
    exact jsPos_jsSub_asym _ _ hab
  · intro a b c ha hb hc h1 h2
    rw [hitComparator_cost_asc] at h1 h2 ⊢
    exact jsSub_nonpos_trans _ _ _ ha hb hc h1 h2

theorem sortD_eq_reverse (l : List FloodControlHit)
    (hnn : ∀ h ∈ l, costKey h ≠ JsVal.nan)
    (hd : l.Pairwise (fun a b => costKey a ≠ costKey b)) :
    sortedHits .ContractCost .desc l = (sortedHits .ContractCost .asc l).reverse := by
  induction l with
  | nil => rfl
  | cons x xs ih =>
    rw [List.pairwise_cons] at hd
    obtain ⟨hd1, hd2⟩ := hd
    have e1 : sortedHits .ContractCost .desc (x :: xs)
        = jsInsert (hitComparator .ContractCost .desc) x (sortedHits .ContractCost .desc xs) := rfl
    have e2 : sortedHits .ContractCost .asc (x :: xs)
        = jsInsert (hitComparator .ContractCost .asc) x (sortedHits .ContractCost .asc xs) := rfl
    rw [e1, e2, ih (fun h hh => hnn h (List.mem_cons_of_mem x hh)) hd2]
    refine insertD_reverse x (sortedHits .ContractCost .asc xs)
      (sortedHits_cost_sorted xs (fun h hh => hnn h (List.mem_cons_of_mem x hh)))
      (hnn x (List.mem_cons_self x xs)) ?_ ?_
    · intro y hy
      exact hnn y (List.mem_cons_of_mem x ((mem_jsSortBy _ y xs).mp hy))
    · intro y hy
      exact hd1 y ((mem_jsSortBy _ y xs).mp hy)

theorem sortedHits_cost_stable (dir : SortDirection) (l : List FloodControlHit) (k : JsVal) :
    (sortedHits .ContractCost dir l).filter (fun h => costKey h = k)
      = l.filter (fun h => costKey h = k) := by
  refine jsSortBy_filter (hitComparator .ContractCost dir) costKey ?_ l k
  intro a b hab
  intro hk
  exact sortKey_ne_of_pos .ContractCost dir a b hab (by simp [sortKey, hk])

theorem sortedHits_stable (f : SortField) (dir : SortDirection) (l : List FloodControlHit)
    (k : SortKey) :
    (sortedHits f dir l).filter (fun h => sortKey f h = k)
      = l.filter (fun h => sortKey f h = k) :=
  jsSortBy_filter (hitComparator f dir) (sortKey f) (sortKey_ne_of_pos f dir) l k

theorem jsSub_nan_left (v : JsVal) : jsSub JsVal.nan v = JsVal.nan := by
  cases v <;> rfl

theorem jsSub_nan_right (v : JsVal) : jsSub v JsVal.nan = JsVal.nan := by
  cases v <;> rfl

theorem strCompare_flip (x y : String) :
    (if jsStrLt x y then JsVal.num 1 else if jsStrLt y x then JsVal.num (-1) else JsVal.num 0)
      = specStringCompare y x := by
  by_cases h1 : jsStrLt x y = true
  · have h2 := jsStrLt_asymm x y h1
    simp [specStringCompare, h1, h2]
  · have h1a : jsStrLt x y = false := by
      revert h1
      cases jsStrLt x y <;> simp
    by_cases h2 : jsStrLt y x = true
    · simp [specStringCompare, h1a, h2]
    · have h2a : jsStrLt y x = false := by
        revert h2
        cases jsStrLt y x <;> simp
      simp [specStringCompare, h1a, h2a]

/-! ## Claims about the table sort (C6, C7) -/

/-- Claim C6 counterexample: with two records of equal contract cost, the
stable sort keeps their input order in both directions, so the descending
order is not the reverse of the ascending order. -/
theorem c6_counterexample :
    sortedHits .ContractCost .desc [tieHitA, tieHitB]
        ≠ (sortedHits .ContractCost .asc [tieHitA, tieHitB]).reverse ∧
    sortedHits .ContractCost .desc [tieHitA, tieHitB] = [tieHitA, tieHitB] ∧
    (sortedHits .ContractCost .asc [tieHitA, tieHitB]).reverse = [tieHitB, tieHitA] := by
  refine ⟨?_, ?_, ?_⟩ <;> with_unfolding_all decide

/-- Claim C6 (amended): when the parsed contract costs of the batch are all
parsable and pairwise distinct, toggling from ascending to descending yields
exactly the reverse of the ascending order; records of equal parsed cost keep
their relative input order under both directions (stability, stated as
preservation of every equal-cost subsequence), so with ties the descending
order is not the exact reverse. -/
theorem c6_amended (l : List FloodControlHit)
    (hnn : ∀ h ∈ l, costKey h ≠ JsVal.nan)
    (hd : l.Pairwise (fun a b => costKey a ≠ costKey b)) :
    sortedHits .ContractCost .desc l = (sortedHits .ContractCost .asc l).reverse ∧
    ∀ (hits : List FloodControlHit) (dir : SortDirection) (k : JsVal),
      (sortedHits .ContractCost dir hits).filter (fun h => costKey h = k)
        = hits.filter (fun h => costKey h = k) :=
  ⟨sortD_eq_reverse l hnn hd, fun hits dir k => sortedHits_cost_stable dir hits k⟩

/-- Claim C7 counterexample: the comparator does not treat an unparsable cost
as zero. With costs `"abc"` and `"-5"`, treating `"abc"` as zero would give a
positive ascending comparator value (0 is greater than -5) and place `"-5"`
first; the code instead produces NaN, which the sort treats as a tie, keeping
the records in input order. -/
theorem c7_counterexample :
    hitComparator .ContractCost .asc unparsableCostHit negativeCostHit = JsVal.nan ∧
    jsPos JsVal.nan = false ∧
    jsPos (jsSub (JsVal.num 0) (costKey negativeCostHit)) = true ∧
    sortedHits .ContractCost .asc [unparsableCostHit, negativeCostHit]
      = [unparsableCostHit, negativeCostHit] := by
  refine ⟨?_, rfl, ?_, ?_⟩ <;> with_unfolding_all decide

/-- Claim C7 (amended): the comparator compares the cost field numerically on
`parseFloat(value || '0')` — a missing or empty cost is parsed as zero, but a
cost with no parsable numeric prefix yields NaN, which makes the pair compare
as a tie (in both argument orders and directions) instead of being treated as
zero; every other field is compared case-insensitively and lexicographically
on its string form (missing values read as the empty string); and records
with equal comparator keys keep their relative input order (stated as
preservation of every equal-key subsequence). -/
theorem c7_amended :
    (∀ (a b : FloodControlHit) (qa qb : ℚ), costKey a = .num qa → costKey b = .num qb →
        hitComparator .ContractCost .asc a b = .num (qa - qb)) ∧
    (∀ a : FloodControlHit,
        a.getField .ContractCost = none ∨ a.getField .ContractCost = some "" →
        costKey a = .num 0) ∧
    (∀ (a b : FloodControlHit) (dir : SortDirection), costKey a = .nan →
        jsPos (hitComparator .ContractCost dir a b) = false ∧
        jsPos (hitComparator .ContractCost dir b a) = false) ∧
    (∀ f : SortField, f ≠ .ContractCost → ∀ a b : FloodControlHit,
        hitComparator f .asc a b
            = specStringCompare (jsToLower ((a.getField f).getD ""))
                (jsToLower ((b.getField f).getD "")) ∧
        hitComparator f .desc a b
            = specStringCompare (jsToLower ((b.getField f).getD ""))
                (jsToLower ((a.getField f).getD ""))) ∧
    (∀ (f : SortField) (dir : SortDirection) (l : List FloodControlHit) (k : SortKey),
        (sortedHits f dir l).filter (fun h => sortKey f h = k)
          = l.filter (fun h => sortKey f h = k)) := by
  refine ⟨?_, ?_, ?_, ?_, fun f dir l k => sortedHits_stable f dir l k⟩
  · intro a b qa qb ha hb
    rw [hitComparator_cost_asc, ha, hb]
    rfl
  · intro a ha
    rcases ha with ha | ha <;> simp [costKey, ha, jsOrDefault] <;> with_unfolding_all decide
  · intro a b dir ha
    cases dir with
    | asc =>
      rw [hitComparator_cost_asc a b, hitComparator_cost_asc b a, ha, jsSub_nan_left,
        jsSub_nan_right]
      exact ⟨rfl, rfl⟩
    | desc =>
      rw [hitComparator_cost_desc a b, hitComparator_cost_desc b a, ha, jsSub_nan_left,
        jsSub_nan_right]
      exact ⟨rfl, rfl⟩
  · intro f hf a b
    constructor
    · simp [hitComparator, hf, specStringCompare]
    · simp only [hitComparator, hf, if_false]
      exact strCompare_flip (jsToLower ((a.getField f).getD ""))
        (jsToLower ((b.getField f).getD ""))

/-! ## Claims about the unique-contractor statistics (C5) -/

theorem truthy_filter_eq (hits : List FloodControlHit) :
    (hits.map (fun h => h.Contractor)).filter jsTruthyStr
      = ((hits.filterMap (fun h => h.Contractor)).filter (fun s => s ≠ "")).map some := by
  induction hits with
  | nil => rfl
  | cons h t ih =>
    cases hc : h.Contractor with
    | none => simp [List.map_cons, List.filter_cons, List.filterMap_cons, jsTruthyStr, hc, ih]
    | some s =>
      by_cases hs : s = "" <;>
        simp [List.map_cons, List.filter_cons, List.filterMap_cons, jsTruthyStr, hc, hs, ih]

theorem nonblank_filter_eq (hits : List FloodControlHit) :
    (hits.filter contractorNonBlank).map (fun h => h.Contractor)
      = ((hits.filterMap (fun h => h.Contractor)).filter (fun s => jsTrim s ≠ "")).map some := by
  induction hits with
  | nil => rfl
  | cons h t ih =>
    cases hc : h.Contractor with
    | none => simp [List.filter_cons, List.filterMap_cons, contractorNonBlank, hc, ih]
    | some s =>
      by_cases hs : jsTrim s = ""
      · simp [List.filter_cons, List.filterMap_cons, contractorNonBlank, hc, hs, ih]
      · have hs2 : s ≠ "" := by
          intro he
          subst he
          exact hs rfl
        simp [List.filter_cons, List.filterMap_cons, contractorNonBlank, hc, hs, hs2, ih]

theorem dedup_length_map_some (l : List String) :
    ((l.map some).dedup).length = l.dedup.length := by
  induction l with
  | nil => rfl
  | cons s t ih =>
    by_cases h : s ∈ t
    · rw [List.map_cons, List.dedup_cons_of_mem (by simpa using h),
        List.dedup_cons_of_mem h, ih]
    · rw [List.map_cons, List.dedup_cons_of_not_mem (by simpa using h),
        List.dedup_cons_of_not_mem h]
      simp [ih]

/-- Claim C5 counterexample: on the specification sample
`["A", "", " ", "B", "A"]` the dashboard unique-contractor count is 3, not 2:
`filter(Boolean)` drops only missing and empty values, so the
whitespace-only contractor `" "` is counted as a distinct contractor. -/
theorem c5_counterexample :
    dashboardUniqueContractors contractorSampleHits = 3 ∧
    dashboardUniqueContractors contractorSampleHits ≠ 2 := by
  refine ⟨?_, ?_⟩ <;> decide

/-- Claim C5 (amended): the table-view statistic counts the distinct
contractor names that are non-blank after trimming (the sample yields 2),
while the dashboard statistic drops only missing and empty names and counts
whitespace-only names as contractors (the sample yields 3). -/
theorem c5_amended (hits : List FloodControlHit) :
    tableUniqueContractors hits
        = ((hits.filterMap (fun h => h.Contractor)).filter
            (fun s => jsTrim s ≠ "")).toFinset.card ∧
    dashboardUniqueContractors hits
        = ((hits.filterMap (fun h => h.Contractor)).filter (fun s => s ≠ "")).toFinset.card ∧
    tableUniqueContractors contractorSampleHits = 2 ∧
    dashboardUniqueContractors contractorSampleHits = 3 := by
  refine ⟨?_, ?_, by decide, by decide⟩
  · rw [tableUniqueContractors, nonblank_filter_eq, dedup_length_map_some, List.card_toFinset]
  · rw [dashboardUniqueContractors, truthy_filter_eq, dedup_length_map_some, List.card_toFinset]

/-! ## Claims about the top-10 chart aggregation (C9) -/

theorem countDescCmp_pos_iff {α : Type} (count : α → ℕ) (a b : α) :
    jsPos (countDescCmp count a b) = true ↔ count a < count b := by
  simp [countDescCmp, jsPos, sub_pos]

theorem jsSortBy_countDesc_sorted {α : Type} (count : α → ℕ) (l : List α) :
    (jsSortBy (countDescCmp count) l).Pairwise (fun a b => count b ≤ count a) := by
  have h := jsSortBy_pairwise (countDescCmp count) (fun _ => True) ?_ ?_ l (fun _ _ => trivial)
  · refine h.imp ?_
    intro a b hab
    have : ¬count a < count b := by
      intro hlt
      rw [(countDescCmp_pos_iff count a b).mpr hlt] at hab
      cases hab
    omega
  · intro a b hab
    rw [countDescCmp_pos_iff] at hab
    have : ¬count b < count a := by omega
    revert this
    rw [← countDescCmp_pos_iff count b a]
    cases jsPos (countDescCmp count b a) <;> simp
  · intro a b c _ _ _ h1 h2
    rw [Bool.eq_false_iff, Ne, countDescCmp_pos_iff] at h1 h2 ⊢
    omega

theorem topTen_length {α : Type} (count : α → ℕ) (entries : List α) :
    ((jsSortBy (countDescCmp count) entries).take 10).length = min 10 entries.length := by
  rw [List.length_take, (jsSortBy_perm (countDescCmp count) entries).length_eq]

theorem topTen_sorted_strict {α : Type} (count : α → ℕ) (entries : List α)
    (hdist : entries.Pairwise (fun a b => count a ≠ count b)) :
    ((jsSortBy (countDescCmp count) entries).take 10).Pairwise
      (fun a b => count b < count a) := by
  have hs := jsSortBy_countDesc_sorted count entries
  have hd2 : (jsSortBy (countDescCmp count) entries).Pairwise
      (fun a b => count a ≠ count b) :=
    ((jsSortBy_perm (countDescCmp count) entries).pairwise_iff
      (fun hab => hab.symm)).mpr hdist
  have hlt := (hs.and hd2).imp
    (fun hab => lt_of_le_of_ne hab.1 (fun he => hab.2 he.symm))
  exact hlt.sublist (List.take_sublist 10 _)

/-- Claim C9 counterexample: a sample of 10 records that all carry the same
region value satisfies the premises (N is at least 10 and the value
frequencies are pairwise distinct), yet the top-10 aggregation returns a
single entry, not 10. -/
theorem c9_counterexample :
    sameRegionHits.length = 10 ∧
    regionChartLive sameRegionHits = [("A", 10)] ∧
    (regionChartLive sameRegionHits).length ≠ 10 := by
  refine ⟨?_, ?_, ?_⟩ <;> with_unfolding_all decide

/-- Claim C9 (amended): for every retrieved sample — with or without tied
frequencies — each of the region, type-of-work, and contractor top-10
aggregations returns exactly min(10, D) entries, where D is the number of
distinct non-blank facet values in the sample; whenever the value frequencies
of a counter are pairwise distinct, the corresponding returned entries are
sorted by strictly descending count. In particular the aggregation returns
exactly 10 entries only when the sample has at least 10 distinct non-blank
values. -/
theorem c9_amended :
    (∀ hits : List FloodControlHit,
      (regionChartLive hits).length = min 10 (regionFrequency hits).length ∧
      (typeOfWorkChartLive hits).length = min 10 (typeOfWorkFrequency hits).length ∧
      (contractorChartLive hits).length = min 10 (contractorFrequency hits).length) ∧
    (∀ hits : List FloodControlHit,
      ((regionFrequency hits).Pairwise (fun a b => a.2 ≠ b.2) →
        (regionChartLive hits).Pairwise (fun a b => b.2 < a.2)) ∧
      ((typeOfWorkFrequency hits).Pairwise (fun a b => a.2 ≠ b.2) →
        (typeOfWorkChartLive hits).Pairwise (fun a b => b.2 < a.2)) ∧
      ((contractorFrequency hits).Pairwise (fun a b => a.2 ≠ b.2) →
        (contractorChartLive hits).Pairwise
          (fun a b => b.Projects < a.Projects))) := by
  constructor
  · intro hits
    refine ⟨topTen_length Prod.snd (regionFrequency hits),
      topTen_length Prod.snd (typeOfWorkFrequency hits), ?_⟩
    have := topTen_length ContractorEntry.Projects
      ((contractorFrequency hits).map (fun e => ContractorEntry.mk (truncateName e.1) e.2 e.1))
    rwa [List.length_map] at this
  · intro hits
    refine ⟨fun h1 => topTen_sorted_strict Prod.snd (regionFrequency hits) h1,
      fun h2 => topTen_sorted_strict Prod.snd (typeOfWorkFrequency hits) h2, fun h3 => ?_⟩
    have hm : ((contractorFrequency hits).map
        (fun e => ContractorEntry.mk (truncateName e.1) e.2 e.1)).Pairwise
        (fun a b => ContractorEntry.Projects a ≠ ContractorEntry.Projects b) := by
      rw [List.pairwise_map]
      exact h3
    exact topTen_sorted_strict ContractorEntry.Projects
      ((contractorFrequency hits).map (fun e => ContractorEntry.mk (truncateName e.1) e.2 e.1)) hm

/-! ## Claims about pagination (C8) -/

theorem paginatedHits_take_drop (l : List FloodControlHit) (p : ℕ) :
    paginatedHits l p = (l.drop (p * 20)).take 20 := by
  show jsSlice l (p * hitsPerPage) (min (p * hitsPerPage + hitsPerPage) l.length)
    = (l.drop (p * 20)).take 20
  rw [jsSlice, hitsPerPage]
  rw [List.take_eq_take]
  simp only [List.length_drop]
  omega

theorem pageAction_le (cur : ℕ) (hc : cur ≤ 2) (a : PageAction) :
    applyPageAction 3 cur a ≤ 2 := by
  cases a with
  | prevPage =>
    simp only [applyPageAction]
    omega
  | nextPage =>
    simp only [applyPageAction]
    omega
  | pageButton i =>
    have hi := i.isLt
    simp only [applyPageAction]
    split_ifs <;> omega

theorem pageActions_le (acts : List PageAction) (cur : ℕ) (hc : cur ≤ 2) :
    List.foldl (applyPageAction 3) cur acts ≤ 2 := by
  induction acts generalizing cur with
  | nil => exact hc
  | cons a rest ih => exact ih (applyPageAction 3 cur a) (pageAction_le cur hc a)

/-- Claim C8: the displayed table page is always the slice
`sorted[p*20 : p*20+20]`; with 45 sorted records, page 0 shows the first 20
records and page 2 shows records 41 to 45; the page count is
`ceil(45/20) = 3`; and starting from page 0, no sequence of
previous/next/page-number control activations can reach a page index beyond
`ceil(45/20) - 1 = 2`. -/
theorem c8_pagination (l : List FloodControlHit) (hl : l.length = 45) :
    (∀ (l2 : List FloodControlHit) (p : ℕ), paginatedHits l2 p = (l2.drop (p * 20)).take 20) ∧
    paginatedHits l 0 = l.take 20 ∧
    paginatedHits l 2 = l.drop 40 ∧
    totalPages l.length = 3 ∧
    ∀ acts : List PageAction, applyPageActions (totalPages l.length) acts ≤ 2 := by
  have ht : totalPages l.length = 3 := by
    rw [hl]
    rfl
  refine ⟨paginatedHits_take_drop, ?_, ?_, ht, ?_⟩
  · rw [paginatedHits_take_drop]
    simp
  · rw [paginatedHits_take_drop]
    refine List.take_of_length_le ?_
    simp [hl]
  · intro acts
    rw [ht]
    exact pageActions_le acts 0 (by omega)

/-! ## Witnesses -/

theorem c2_region_resets_province_witness :
    (handleFilterChange (applyFilterChanges emptyFilters [(Facet.Province, "Cebu")])
        Facet.Region "2021").Province = "" ∧
    (handleFilterChange emptyFilters Facet.InfraYear "2021").get Facet.InfraYear = "2021" ∧
    ∀ g, g ≠ Facet.InfraYear →
      (handleFilterChange emptyFilters Facet.InfraYear "2021").get g = emptyFilters.get g :=
  c2_region_resets_province emptyFilters [(Facet.Province, "Cebu")] "2021" Facet.InfraYear
    (by decide)

theorem c3_export_abort_and_cleanup_witness :
    (handleExportData [Except.ok [tieHitA], Except.error "network"]).outputFile = none ∧
    (handleExportData [Except.ok [tieHitA], Except.error "network"]).alerts
        = [ExportAlert.exportError] ∧
    ∀ pages2, (handleExportData pages2).isExporting = false :=
  c3_export_abort_and_cleanup [Except.ok [tieHitA], Except.error "network"] "network" (by simp)

theorem c4_snapshot_statistics_witness :
    renderedStatistics emptyFilters "" 0 [] = (StatsSource.snapshot, defaultStats) ∧
    defaultStats =
      { totalProjects := 9855, totalCost := .num 547603497105, uniqueContractors := 2409 } :=
  c4_snapshot_statistics emptyFilters "" 0 [] rfl (fun f => by cases f <;> rfl)

theorem c6_amended_witness :
    sortedHits .ContractCost .desc distinctCostHits
      = (sortedHits .ContractCost .asc distinctCostHits).reverse :=
  (c6_amended distinctCostHits (by with_unfolding_all decide)
    (by with_unfolding_all decide)).1

theorem c7_amended_witness :
    hitComparator .ContractCost .asc tieHitA tieHitB = JsVal.num ((100 : ℚ) - 100) ∧
    jsPos (hitComparator .ContractCost .asc unparsableCostHit negativeCostHit) = false :=
  ⟨c7_amended.1 tieHitA tieHitB 100 100 (by with_unfolding_all decide)
      (by with_unfolding_all decide),
    (c7_amended.2.2.1 unparsableCostHit negativeCostHit .asc (by decide)).1⟩

theorem c8_pagination_witness : paginatedHits hits45 2 = hits45.drop 40 :=
  (c8_pagination hits45 (by simp [hits45])).2.2.1

theorem c9_amended_witness :
    (regionChartLive tiedRegionHits).length = min 10 (regionFrequency tiedRegionHits).length ∧
    (regionChartLive sameRegionHits).Pairwise (fun a b => b.2 < a.2) :=
  ⟨(c9_amended.1 tiedRegionHits).1, (c9_amended.2 sameRegionHits).1 (by decide)⟩

theorem c10_snapshot_witness :
    dashboardStatistics 0 [] = defaultStats ∧
    yearlyChartData [] 0 [] = yearlySnapshotSeries [] :=
  c10_snapshot_on_zero_or_9855 [] 0 [] (Or.inl rfl)
